import Mathlib

/-!
# Verification of the Vietnamese-corpus curation notebook

This file gives a shallow embedding of the curation notebook
(`src/notebook.ipynb`) and of the spec-described pipeline components it
invokes, and proves (or refutes) the frozen claims about it.

Two layers are modelled:

* the notebook's own orchestration (which cell reads which directory-path
  variable and writes which), taken directly from the notebook source; and
* the pipeline components (`AddId`, the filter-pipeline builder, the
  fasttext score-filter, the sampling helpers) whose implementations live in
  the external NeMo-Curator package rather than in this repository; these
  are modelled from the spec, and each such definition is marked
  `Modelled from the spec:` in its doc comment.

Machine arithmetic that Python performs on floats (the sampling fraction
`num_samples / len(df)`) is modelled as exact rational arithmetic carried
out on numerator/denominator pairs of naturals, with Python's banker's
rounding made explicit.
-/

/-- A document record: text plus an optional id and named rational-valued
metadata fields (`quality_score` and the like). -/
structure Doc where
  text : String
  id : Option String := none
  fields : List (String × ℚ) := []
deriving DecidableEq, Repr

/-- A partitioned dataset: a list of partitions of document records. -/
abbrev Dataset := List (List Doc)

/-! ## The notebook's orchestration layer

The curation cells of the notebook each read one or more directory-path
variables and write their output under a new directory-path variable.  The
names below are the Python variables the notebook uses. -/

/-- The directory-path variables the notebook's curation cells read or bind.
`dedupedOutputDir`, `lqSamplesDir` and `hqSamplesDir` are *read* by cells of
the notebook but no cell ever binds them. -/
inductive DirName
  | rawDir
  | formattedDir
  | addIdDir
  | dedupedOutputDir
  | heuristicDir
  | lqSamplesDir
  | hqSamplesDir
  | modelDir
  | classifierDir
deriving DecidableEq, Repr

/-- The kinds of stages the notebook's curation cells apply. -/
inductive StageKind
  | unicodeReformat
  | addIdStage
  | heuristicFilterStage
  | trainClassifierStage
  | classifierFilterStage
deriving DecidableEq, Repr

/-- One notebook cell: it applies `stage` to the datasets read from the
directories named by `inputs` and writes the result to `output`. -/
structure CellApp where
  stage : StageKind
  inputs : List DirName
  output : DirName
deriving DecidableEq, Repr

/-- The curation cells of the notebook, in source order:
1. "Unicode reformatting": reads the raw shards, writes `formatted`;
2. "Adding Custom IDs": reads `formatted`, writes `add_id`;
3. the cell under the heading "Exact deduplication", which is a verbatim
   repetition of the previous cell: it again reads `formatted` (not the
   id-added data) and again applies `AddId`, writing `add_id`;
4. "Heuristic Quality Filtering": reads `deduped_output_dir` (never bound),
   writes `heuristic_filtering`;
5. the cell under "Prepare Data for Training Classifier", which is a
   verbatim repetition of the previous cell;
6. "Training classifier": reads `lq_samples_path` and `hq_samples_path`
   (never bound), writes the fasttext model;
7. "Classify and filter the dataset": reads `heuristic_filtering` and the
   model, writes the classifier-filtered output. -/
def notebookCells : List CellApp :=
  [ ⟨.unicodeReformat, [.rawDir], .formattedDir⟩,
    ⟨.addIdStage, [.formattedDir], .addIdDir⟩,
    ⟨.addIdStage, [.formattedDir], .addIdDir⟩,
    ⟨.heuristicFilterStage, [.dedupedOutputDir], .heuristicDir⟩,
    ⟨.heuristicFilterStage, [.dedupedOutputDir], .heuristicDir⟩,
    ⟨.trainClassifierStage, [.lqSamplesDir, .hqSamplesDir], .modelDir⟩,
    ⟨.classifierFilterStage, [.heuristicDir, .modelDir], .classifierDir⟩ ]

/-- The bindings of directory-path variables to datasets during a run. -/
abbrev Env := List (DirName × Dataset)

/-- Python name resolution for one directory-path variable. -/
def lookupEnv (e : Env) (d : DirName) : Option Dataset :=
  (e.find? (fun q => decide (q.1 = d))).map (·.2)

/-- The first input name of a cell that is not bound in the environment,
if any: exactly the name a Python `NameError` would report. -/
def firstUnbound (e : Env) : List DirName → Option DirName
  | [] => none
  | d :: ds =>
    match lookupEnv e d with
    | none => some d
    | some _ => firstUnbound e ds

/-- The state of a sequential run of the notebook: the variable bindings,
the stages executed so far, and the name whose resolution failed, if any
(after which no further cell runs). -/
structure RunState where
  env : Env
  executed : List StageKind
  nameError : Option DirName

/-- Run one cell: a cell whose inputs are all bound applies its stage
(`sem` gives each stage's dataset transformation) and binds its output
variable; a cell with an unbound input raises a `NameError` naming the
first unbound variable, which halts the run. -/
def runCell (sem : StageKind → Dataset → Dataset) (st : RunState) (c : CellApp) : RunState :=
  match st.nameError with
  | some _ => st
  | none =>
    match firstUnbound st.env c.inputs with
    | some d => { st with nameError := some d }
    | none =>
      { env := (c.output, sem c.stage ((c.inputs.filterMap (lookupEnv st.env)).flatten)) :: st.env,
        executed := st.executed ++ [c.stage],
        nameError := none }

/-- Run the notebook's curation cells in order, starting from an
environment in which only the raw shards are bound.  The per-stage dataset
semantics `sem` is a parameter: the notebook's control flow does not depend
on it. -/
def runNotebook (sem : StageKind → Dataset → Dataset) (raw : Dataset) : RunState :=
  notebookCells.foldl (runCell sem) { env := [(.rawDir, raw)], executed := [], nameError := none }

/-! ## The Identifier Assigner

Modelled from the spec: the implementation of `AddId` belongs to the
external NeMo-Curator package and is not part of this repository's source;
§4.2 of the spec describes it: every document receives
`id = prefix + zero_padded(counter)`; partition `k` is given the disjoint
counter range `[start_index + k*capacity, start_index + (k+1)*capacity)`
before parallel execution and assigns counters sequentially inside it; a
partition longer than its allotted capacity fails with
`CapacityExceededError`.  The zero-padding width 10 is the one Scenario 3
of the spec exhibits (`VI_0000000000`). -/

/-- Width of the zero-padded counter in an id (spec Scenario 3). -/
def padWidth : ℕ := 10

/-- Little-endian base-10 digits, by fuel-indexed structural recursion
(the fuel is an upper bound on the number; `tenDigits` instantiates it). -/
def digitsAux : ℕ → ℕ → List ℕ
  | 0, _ => []
  | _ + 1, 0 => []
  | fuel + 1, n + 1 => ((n + 1) % 10) :: digitsAux fuel ((n + 1) / 10)

/-- Little-endian base-10 digits of `n`. -/
def tenDigits (n : ℕ) : List ℕ := digitsAux n n

/-- The decimal digit characters of `n`, most significant first (empty for
`n = 0`; the padding below then renders `0` as ten zeros, as Python's
`"%010d"` does). -/
def digitChars (n : ℕ) : List Char := ((tenDigits n).map Nat.digitChar).reverse

/-- `zero_padded(counter)`: the decimal rendering of `n`, left-padded with
zeros to width `padWidth`. -/
def zeroPadded (n : ℕ) : String :=
  String.mk (List.replicate (padWidth - (digitChars n).length) '0' ++ digitChars n)

/-- An assigned id: `prefix + zero_padded(counter)` (spec §4.2). -/
def mkId (pre : String) (n : ℕ) : String := pre ++ zeroPadded n

/-- The first counter of partition `k`'s allotted range (spec §4.2). -/
def partitionBase (startIndex cap k : ℕ) : ℕ := startIndex + k * cap

/-- Assign ids sequentially inside one partition, starting at `base`. -/
def assignPartition (pre : String) (base : ℕ) (docs : List Doc) : List Doc :=
  docs.enum.map (fun q => { q.2 with id := some (mkId pre (base + q.1)) })

/-- Modelled from the spec: the error raised when a partition's document
count exceeds its allotted capacity (spec §4.2, §7). -/
structure CapacityExceededError where
  partitionIndex : ℕ
deriving DecidableEq, Repr

/-- Modelled from the spec: the Identifier Assigner (§4.2).  Partition `k`
receives the counter range starting at `start_index + k*cap`; a partition
longer than `cap` fails with `CapacityExceededError` instead of letting its
counters run into the next partition's range. -/
def assignIds (pre : String) (startIndex cap : ℕ) (parts : Dataset) :
    Except CapacityExceededError Dataset :=
  if parts.any (fun p => cap < p.length) then
    .error ⟨parts.findIdx (fun p => cap < p.length)⟩
  else
    .ok (parts.enum.map (fun q => assignPartition pre (partitionBase startIndex cap q.1) q.2))

/-- One worker's task under a schedule: process partition `k` inside its
pre-assigned range, independent of all other workers (spec §4.2). -/
def runOne (pre : String) (startIndex cap : ℕ) (parts : Dataset) (k : ℕ) : ℕ × List Doc :=
  (k, assignPartition pre (partitionBase startIndex cap k) (parts.getD k []))

/-- Execute the Identifier Assigner's partition tasks in the order given by
a worker schedule `sched` (the order in which parallel workers happen to
pick up partitions); the result is the list of completed
(partition index, assigned partition) pairs in completion order. -/
def assignSchedule (pre : String) (startIndex cap : ℕ) (parts : Dataset) (sched : List ℕ) :
    List (ℕ × List Doc) :=
  sched.map (runOne pre startIndex cap parts)

/-- The counters `assignIds` hands out, partition by partition, starting
from partition index `k` (proof-side companion of `assignIds`). -/
def auxCounters (startIndex cap : ℕ) : ℕ → Dataset → List ℕ
  | _, [] => []
  | k, p :: rest =>
    (List.range p.length).map (fun i => partitionBase startIndex cap k + i)
      ++ auxCounters startIndex cap (k + 1) rest

/-- Decimal decoding of a string (the left inverse of `zeroPadded`):
fold `acc * 10 + digit` over the characters. -/
def decodeNat (s : String) : ℕ :=
  s.data.foldl (fun a c => 10 * a + (c.toNat - 48)) 0

/-! ## Fingerprints and the section labelled "Exact deduplication" -/

/-- Case-fold and collapse whitespace runs (the flag records whether the
previous kept position ended in whitespace, so runs collapse to one blank
and leading whitespace is dropped). -/
def collapseFold : List Char → Bool → List Char
  | [], _ => []
  | c :: cs, afterWs =>
    if c.isWhitespace then
      (if afterWs then collapseFold cs true else ' ' :: collapseFold cs true)
    else c.toLower :: collapseFold cs false

/-- Modelled from the spec: the deduplication fingerprint (§3), a pure
function of the text alone — the whitespace-collapsed, case-folded form of
the text, exactly as spec Scenario 1 exhibits it. -/
def fingerprint (text : String) : String := String.mk (collapseFold text.data true)

/-- The stage the notebook's section headed "Exact deduplication" actually
performs, as written: the cell is a verbatim copy of the preceding
`AddId` cell, so it re-runs the Identifier Assigner on the formatted data
and removes nothing. -/
def exactDedupSection (pre : String) (startIndex cap : ℕ) (formatted : Dataset) :
    Except CapacityExceededError Dataset :=
  assignIds pre startIndex cap formatted

/-- A dataset with two byte-identical documents: one distinct fingerprint. -/
def dupInput : Dataset := [[{ text := "Xin chao" }, { text := "Xin chao" }]]

/-! ## The heuristic filter pipeline

Modelled from the spec: `build_filter_pipeline` belongs to the external
NeMo-Curator package; §4.4 of the spec describes it: a declarative ordered
list of named heuristics with parameters and thresholds is translated, via
a registry of scoring functions, into an ordered chain of score+filter
stages; heuristics run in the specified order and a document rejected by an
earlier filter is never scored by a later one. -/

/-- Word counter (state: whether the previous character was inside a word). -/
def wordCountAux : List Char → Bool → ℕ
  | [], _ => 0
  | c :: cs, inWord =>
    if c.isWhitespace then wordCountAux cs false
    else (if inWord then 0 else 1) + wordCountAux cs true

/-- Number of whitespace-separated words of a text. -/
def wordCount (t : String) : ℕ := wordCountAux t.data false

/-- One executable heuristic: a scoring function paired with the threshold
predicate built from the specification entry. -/
structure Heuristic where
  score : String → ℚ
  keep : ℚ → Bool

/-- One entry of a declarative filter-pipeline specification:
`{name, params, threshold}` (spec §3, §4.4). -/
structure FilterSpecEntry where
  name : String
  param : ℚ
  minVal : Option ℚ := none
  maxVal : Option ℚ := none

/-- Construction-time errors of the filter-pipeline builder (spec §4.4). -/
inductive BuildError
  | unknownFilter (name : String)
  | invalidThreshold
deriving DecidableEq, Repr

/-- The registry mapping heuristic names to scoring functions (spec §9):
two representative closed-form heuristics. -/
def heuristicRegistry (name : String) : Option (ℚ → String → ℚ) :=
  if name = "word_count" then some (fun _ t => (wordCount t : ℚ))
  else if name = "char_count" then some (fun _ t => (t.length : ℚ))
  else none

/-- The threshold comparison of spec §4.4: an optional lower and an
optional upper bound, both inclusive. -/
def passThreshold (minVal maxVal : Option ℚ) (s : ℚ) : Bool :=
  (match minVal with | some a => decide (a ≤ s) | none => true)
    && (match maxVal with | some b => decide (s ≤ b) | none => true)

/-- A threshold is well formed unless its bounds are inverted (spec §4.4). -/
def thresholdWellFormed (minVal maxVal : Option ℚ) : Bool :=
  match minVal, maxVal with
  | some a, some b => decide (a ≤ b)
  | _, _ => true

/-- Build one heuristic from one specification entry: unknown names and
inverted thresholds are construction-time errors (spec §4.4). -/
def buildOne (e : FilterSpecEntry) : Except BuildError Heuristic :=
  match heuristicRegistry e.name with
  | none => .error (.unknownFilter e.name)
  | some f =>
    if thresholdWellFormed e.minVal e.maxVal then
      .ok { score := f e.param, keep := passThreshold e.minVal e.maxVal }
    else .error .invalidThreshold

/-- Modelled from the spec: the filter-pipeline builder (§4.4). -/
def build_filter_pipeline (spec : List FilterSpecEntry) : Except BuildError (List Heuristic) :=
  spec.mapM buildOne

/-- Execute a filter pipeline: the heuristics run in list order, and each
one scores exactly the documents that survived all earlier ones
(spec §4.4's short-circuit execution policy). -/
def runFilters : List Heuristic → List Doc → List Doc
  | [], ds => ds
  | h :: hs, ds => runFilters hs (ds.filter (fun d => h.keep (h.score d.text)))

/-! ## The quality-classifier score filter

Modelled from the spec: `ScoreFilter`/`FastTextQualityFilter` belong to the
external NeMo-Curator package; §4.5 of the spec describes the mechanism:
`infer(text) -> (label, confidence)`; the Score stage stores the
label-conditioned confidence into `fields["quality_score"]`; a downstream
Filter stage retains the documents whose `quality_score` exceeds the
configured threshold. -/

/-- A pretrained classifier, as the spec's opaque `infer` contract. -/
structure FTModel where
  infer : String → String × ℚ

/-- The high-quality label the classifier-based filter keys on. -/
def hqLabel : String := "__label__hq"

/-- The label-conditioned confidence stored as the quality score: the
confidence itself when the predicted label is the high-quality label, and
its complement otherwise (spec §4.5). -/
def qualityScoreOf (m : FTModel) (text : String) : ℚ :=
  if (m.infer text).1 = hqLabel then (m.infer text).2 else 1 - (m.infer text).2

/-- Store the quality score into the document's fields. -/
def withQuality (m : FTModel) (d : Doc) : Doc :=
  { d with fields := ("quality_score", qualityScoreOf m d.text) :: d.fields }

/-- The Score stage of the classifier filter. -/
def scoreStage (m : FTModel) (docs : List Doc) : List Doc := docs.map (withQuality m)

/-- The downstream Filter stage: keep the documents whose `quality_score`
field exceeds the threshold (a document without the field is dropped). -/
def filterByQuality (threshold : ℚ) (docs : List Doc) : List Doc :=
  docs.filter (fun d =>
    match d.fields.lookup "quality_score" with
    | some q => decide (threshold < q)
    | none => false)

/-- The composed classifier-based score filter of the notebook's last
curation cell. -/
def scoreFilterQuality (m : FTModel) (threshold : ℚ) (docs : List Doc) : List Doc :=
  filterByQuality threshold (scoreStage m docs)

/-! ## Training-data preparation (`create_samples`)

The notebook's `create_samples` labels a dataset with
`FastTextLabelModifier(label)`, draws `df.sample(frac = num_samples /
len(df))` from it, and returns the text column; the two samples are
concatenated and shuffled with `random.shuffle`.  pandas'
`DataFrame.sample(frac=f)` draws `round(f * n)` rows (Python's
banker's rounding), uniformly without replacement and in random order, and
the Dask dataframe the notebook holds applies that to *each partition
independently*.  The randomness of `sample` and `shuffle` is made explicit
as permutation parameters; the float fraction is modelled as the exact
rational `num/den`. -/

/-- Python's `round` (banker's rounding) of the exact rational
`num * np / den`: the number of rows pandas' `sample(frac=num/den)` draws
from a partition of `np` rows. -/
def pySampleSize (num den np : ℕ) : ℕ :=
  let t := num * np
  let q := t / den
  let r := t % den
  if 2 * r < den then q
  else if den < 2 * r then q + 1
  else if q % 2 = 0 then q else q + 1

/-- Modelled from the spec: `FastTextLabelModifier(label)` (library code
absent from this repository): flatten the document to a single line and
prepend the label. -/
def fastTextLabel (label text : String) : String :=
  label ++ " " ++ String.mk (text.data.map (fun c => if c = '\n' then ' ' else c))

/-- Draw pandas' sample from one partition: `idxs` is the random
permutation of the row indices the unseeded RNG produced; the sample is the
first `round(frac * np)` rows in that random order.  This models
`sample(frac, replace=False)` in its legal regime `frac ≤ 1`
(`num ≤ den`, `sampleFracValid`): pandas raises `ValueError` for
`frac > 1` without replacement, and for `frac ≤ 1` the rounded count never
exceeds the partition length (`pySampleSize_le`), so the `.take` here is
exact and never truncates. -/
def pySamplePartition (num den : ℕ) (idxs : List ℕ) (p : List String) : List String :=
  (idxs.filterMap (fun i => p.get? i)).take (pySampleSize num den p.length)

/-- The regime in which pandas' `sample(frac = num_samples / len(df),
replace=False)` is defined at all: `frac ≤ 1`, i.e. the requested count is
at most the dataframe's length.  For `frac > 1` pandas raises
`ValueError` (upsampling requires `replace=True`). -/
def sampleFracValid (numSamples : ℕ) (data : List (List String)) : Prop :=
  numSamples ≤ (data.map List.length).sum

/-- `df.sample(frac=num/den)` on a partitioned dataframe: each partition is
sampled independently with the same fraction (`om` holds one index
permutation per partition). -/
def pySampleDF (om : List (List ℕ)) (num den : ℕ) (parts : List (List String)) : List String :=
  ((parts.zip om).map (fun q => pySamplePartition num den q.2 q.1)).flatten

/-- The notebook's `create_samples(data_path, label, num_samples)`: label
every document, then draw `df.sample(frac = num_samples / len(df))` and
return the sampled texts.  `om` is the sampling randomness. -/
def create_samples (om : List (List ℕ)) (data : List (List String)) (label : String)
    (numSamples : ℕ) : List String :=
  pySampleDF om numSamples ((data.map List.length).sum) (data.map (List.map (fastTextLabel label)))

/-- `random.shuffle`, with the permutation the unseeded RNG produced made
an explicit parameter. -/
def pyShuffle (sig : List ℕ) (l : List String) : List String :=
  sig.filterMap (fun i => l.get? i)

/-- The notebook's training-data preparation: 100000 requested samples from
the low-quality source and 100000 from the high-quality source, labelled,
concatenated and shuffled.  `omLq`, `omHq` and `sig` are the random choices
of the two unseeded `sample` calls and the unseeded `shuffle`. -/
def prepare_training_samples (omLq omHq : List (List ℕ)) (sig : List ℕ)
    (lq hq : List (List String)) : List String :=
  pyShuffle sig
    (create_samples omLq lq "__label__lq" 100000 ++ create_samples omHq hq "__label__hq" 100000)

/-- One line per document: the content of the training file the notebook
writes. -/
def trainFileContent (samples : List String) : String :=
  String.join (samples.map (· ++ "\n"))

/-! ## Concrete instances used by counterexamples and witnesses -/

/-- A two-partition dataset for the id-assignment witnesses. -/
def partsC4 : Dataset := [[{ text := "p" }], [{ text := "q" }]]

/-- 150000 single-row partitions: the shape `read_parquet` over many small
files produces. -/
def c3Data : List (List String) := List.replicate 150000 ["d"]

/-- A sampling-randomness choice for `c3Data`: the identity permutation of
each single-row partition. -/
def c3Om : List (List ℕ) := List.replicate 150000 [0]

/-- A low-quality source with one partition of 150001 rows: one document
reading "a" and 150000 reading "b". -/
def lqRows : List String := "a" :: List.replicate 150000 "b"

/-- The low-quality source dataset of the nondeterminism counterpair. -/
def lqDataC10 : List (List String) := [lqRows]

/-- The high-quality source dataset of the nondeterminism counterpair: one
partition of 100000 identical documents, so its sampling fraction is
exactly 1 — inside pandas' legal `frac ≤ 1` regime. -/
def hqDataC10 : List (List String) := [List.replicate 100000 "z"]

/-- First run's sampling randomness on the low-quality source: the identity
permutation. -/
def omIdent : List (List ℕ) := [List.range 150001]

/-- Second run's sampling randomness on the low-quality source: the same
row set visited in rotated order. -/
def omRot : List (List ℕ) := [(List.range 150001).rotate 1]

/-- Sampling randomness on the high-quality source (both runs): the
identity permutation of its 100000 rows. -/
def omHqC10 : List (List ℕ) := [List.range 100000]

/-- Shuffle randomness (both runs): the identity permutation of the 200000
combined samples. -/
def sigC10 : List ℕ := List.range 200000

/-- A two-heuristic specification: word count at least 3, then word count
at least 1. -/
def wcSpec : List FilterSpecEntry :=
  [{ name := "word_count", param := 0, minVal := some 3 },
   { name := "word_count", param := 0, minVal := some 1 }]

/-- The pipeline `build_filter_pipeline` produces from `wcSpec`. -/
def wcPipeline : List Heuristic :=
  [{ score := fun t => (wordCount t : ℚ), keep := passThreshold (some 3) none },
   { score := fun t => (wordCount t : ℚ), keep := passThreshold (some 1) none }]

/-- A two-word document: it passes `word_count ≥ 1` but not
`word_count ≥ 3`. -/
def d0 : Doc := { text := "hello there" }

/-- A toy classifier for the score-filter instance: it labels the text
"good" high-quality with confidence 1 and everything else low-quality with
confidence 1. -/
def m0 : FTModel :=
  { infer := fun t => if t = "good" then (hqLabel, 1) else ("__label__lq", 1) }

/-- Two documents for the score-filter instance. -/
def docsC8 : List Doc := [{ text := "good" }, { text := "bad" }]

/-- A single partition of two documents: longer than a capacity of 1. -/
def bigParts : Dataset := [[{ text := "a" }, { text := "b" }]]

/-! ## Theorems -/

/-! ### The notebook run: helper lemmas -/

/-- In every run of the notebook, whatever each stage does to the data, the
stages that execute are exactly Unicode reformatting followed by the two id
assignments; the run then stops. -/
lemma runNotebook_executed (sem : StageKind → Dataset → Dataset) (raw : Dataset) :
    (runNotebook sem raw).executed
      = [.unicodeReformat, .addIdStage, .addIdStage] := rfl

/-- Every run of the notebook halts with a `NameError` on
`deduped_output_dir`. -/
lemma runNotebook_nameError (sem : StageKind → Dataset → Dataset) (raw : Dataset) :
    (runNotebook sem raw).nameError = some DirName.dedupedOutputDir := rfl

/-- No run of the notebook ever binds `deduped_output_dir`. -/
lemma runNotebook_no_deduped (sem : StageKind → Dataset → Dataset) (raw : Dataset) :
    lookupEnv (runNotebook sem raw).env DirName.dedupedOutputDir = none := rfl

/-- No run of the notebook ever binds the heuristic-filtering output. -/
lemma runNotebook_no_heuristic (sem : StageKind → Dataset → Dataset) (raw : Dataset) :
    lookupEnv (runNotebook sem raw).env DirName.heuristicDir = none := rfl

/-- C9: the heuristic-filtering stage reads `deduped_output_dir`, which no
earlier step of the program ever binds, so for every input (and whatever
the stages do to the data) the pipeline as written raises a `NameError` at
the heuristic-filtering stage: the heuristic filter never executes, no
document is ever filtered, and no deduplicated dataset is ever produced. -/
theorem heuristic_stage_name_error (sem : StageKind → Dataset → Dataset) (raw : Dataset) :
    (runNotebook sem raw).nameError = some DirName.dedupedOutputDir
    ∧ StageKind.heuristicFilterStage ∉ (runNotebook sem raw).executed
    ∧ lookupEnv (runNotebook sem raw).env DirName.dedupedOutputDir = none
    ∧ lookupEnv (runNotebook sem raw).env DirName.heuristicDir = none := by
  refine ⟨runNotebook_nameError sem raw, ?_, runNotebook_no_deduped sem raw,
    runNotebook_no_heuristic sem raw⟩
  rw [runNotebook_executed]
  decide

/-- C2 counterexample: in the notebook the Unicode-normalization transform
is the first stage and the Identifier Assigner only runs on its output, so
in any actual execution normalization precedes every id assignment —
contradicting the claim that the Identifier Assigner runs first and that
every document receives its id before any normalization transform rewrites
its text. -/
theorem normalization_precedes_id_cex :
    (notebookCells.map CellApp.stage).take 2
        = [StageKind.unicodeReformat, StageKind.addIdStage]
    ∧ notebookCells.get? 0 = some ⟨.unicodeReformat, [.rawDir], .formattedDir⟩
    ∧ notebookCells.get? 1 = some ⟨.addIdStage, [.formattedDir], .addIdDir⟩
    ∧ (runNotebook (fun _ ds => ds) []).executed.indexOf StageKind.unicodeReformat
        < (runNotebook (fun _ ds => ds) []).executed.indexOf StageKind.addIdStage := by
  refine ⟨rfl, rfl, rfl, ?_⟩
  rw [runNotebook_executed]
  decide

/-- C2 (amended): the notebook's stage order is: raw shards, then the
Unicode-normalization Transform, then the Identifier Assigner, then a
section labelled "Exact deduplication" that repeats the Identifier
Assigner, then the heuristic filter cells, then classifier training, then
the classifier filter; every document's text is normalized before any id
is assigned (the id stage reads the normalizer's output), and as written
every execution stops after the two id assignments. -/
theorem notebook_stage_order (sem : StageKind → Dataset → Dataset) (raw : Dataset) :
    notebookCells.map CellApp.stage
      = [.unicodeReformat, .addIdStage, .addIdStage, .heuristicFilterStage,
         .heuristicFilterStage, .trainClassifierStage, .classifierFilterStage]
    ∧ notebookCells.get? 0 = some ⟨.unicodeReformat, [.rawDir], .formattedDir⟩
    ∧ notebookCells.get? 1 = some ⟨.addIdStage, [.formattedDir], .addIdDir⟩
    ∧ notebookCells.get? 2 = some ⟨.addIdStage, [.formattedDir], .addIdDir⟩
    ∧ (runNotebook sem raw).executed = [.unicodeReformat, .addIdStage, .addIdStage] :=
  ⟨rfl, rfl, rfl, rfl, runNotebook_executed sem raw⟩

/-! ### Decimal rendering: the zero-padded counter is decodable -/

/-- The fuel-indexed digit function agrees with `Nat.digits 10` whenever
the fuel bounds the number. -/
lemma digitsAux_eq_digits : ∀ (fuel n : ℕ), n ≤ fuel → digitsAux fuel n = Nat.digits 10 n := by
  intro fuel
  induction fuel with
  | zero =>
    intro n hn
    interval_cases n
    simp [digitsAux]
  | succ f ih =>
    intro n hn
    cases n with
    | zero => simp [digitsAux]
    | succ m =>
      rw [show digitsAux (f + 1) (m + 1) = ((m + 1) % 10) :: digitsAux f ((m + 1) / 10) from rfl]
      have hdiv : (m + 1) / 10 ≤ f := by
        have h1 : (m + 1) / 10 < m + 1 := Nat.div_lt_self (Nat.succ_pos m) (by norm_num)
        omega
      rw [ih ((m + 1) / 10) hdiv, ← Nat.digits_def' (by norm_num : (1 : ℕ) < 10) (Nat.succ_pos m)]

/-- `tenDigits` computes `Nat.digits 10`. -/
lemma tenDigits_eq_digits (n : ℕ) : tenDigits n = Nat.digits 10 n :=
  digitsAux_eq_digits n n le_rfl

/-- Folding `10 * acc + digit` over a most-significant-first traversal is
`Nat.ofDigits` of the little-endian digit list. -/
lemma foldr_mul_add_eq_ofDigits (L : List ℕ) :
    L.foldr (fun d a => 10 * a + d) 0 = Nat.ofDigits 10 L := by
  induction L with
  | nil => simp [Nat.ofDigits_nil]
  | cons d t ih => rw [List.foldr_cons, ih, Nat.ofDigits_cons]; ring

/-- Reading a digit character back as a number. -/
lemma digitChar_val (d : ℕ) (hd : d < 10) : (Nat.digitChar d).toNat - 48 = d := by
  interval_cases d <;> rfl

/-- Folding the decoder over digit characters equals folding it over the
digits themselves. -/
lemma foldr_digitChar (D : List ℕ) (hD : ∀ d ∈ D, d < 10) :
    D.foldr (fun d a => 10 * a + ((Nat.digitChar d).toNat - 48)) 0
      = D.foldr (fun d a => 10 * a + d) 0 := by
  induction D with
  | nil => rfl
  | cons d t ih =>
    rw [List.foldr_cons, List.foldr_cons, ih (fun x hx => hD x (List.mem_cons_of_mem d hx)),
      digitChar_val d (hD d (List.mem_cons_self d t))]

/-- Leading zero characters do not change the decoded value. -/
lemma foldl_decode_zeros (k : ℕ) (l : List Char) :
    (List.replicate k '0' ++ l).foldl (fun a c => 10 * a + (c.toNat - 48)) 0
      = l.foldl (fun a c => 10 * a + (c.toNat - 48)) 0 := by
  induction k with
  | zero => rfl
  | succ m ih => simpa [List.replicate_succ] using ih

/-- Decoding inverts the zero-padded rendering. -/
lemma decode_zeroPadded (n : ℕ) : decodeNat (zeroPadded n) = n := by
  have hD : ∀ d ∈ tenDigits n, d < 10 := by
    intro d hd
    rw [tenDigits_eq_digits] at hd
    exact Nat.digits_lt_base (by norm_num) hd
  show (List.replicate (padWidth - (digitChars n).length) '0' ++ digitChars n).foldl
      (fun a c => 10 * a + (c.toNat - 48)) 0 = n
  rw [foldl_decode_zeros, digitChars, List.foldl_reverse, List.foldr_map]
  show (tenDigits n).foldr (fun d a => 10 * a + ((Nat.digitChar d).toNat - 48)) 0 = n
  rw [foldr_digitChar (tenDigits n) hD, foldr_mul_add_eq_ofDigits, tenDigits_eq_digits,
    Nat.ofDigits_digits]

/-- The zero-padded rendering is injective. -/
lemma zeroPadded_inj : Function.Injective zeroPadded := by
  intro a b hab
  have := congrArg decodeNat hab
  rwa [decode_zeroPadded, decode_zeroPadded] at this

/-- For a fixed prefix, distinct counters give distinct ids. -/
lemma mkId_inj (pre : String) : Function.Injective (mkId pre) := by
  intro a b hab
  have hd : (mkId pre a).data = (mkId pre b).data := congrArg String.data hab
  rw [mkId, mkId, String.data_append, String.data_append] at hd
  exact zeroPadded_inj (String.ext (List.append_cancel_left hd))

/-! ### The Identifier Assigner: collision freedom, capacity, determinism -/

/-- The ids assigned inside one partition are the rendered counters
`base, base+1, …`. -/
lemma assignPartition_ids (pre : String) (base : ℕ) (p : List Doc) :
    (assignPartition pre base p).filterMap Doc.id
      = (List.range p.length).map (fun i => mkId pre (base + i)) := by
  unfold assignPartition
  rw [List.filterMap_map]
  rw [show (Doc.id ∘ fun q : ℕ × Doc => { q.2 with id := some (mkId pre (base + q.1)) })
      = some ∘ (fun q : ℕ × Doc => mkId pre (base + q.1)) from rfl]
  rw [List.filterMap_eq_map]
  rw [show (fun q : ℕ × Doc => mkId pre (base + q.1))
      = (fun i => mkId pre (base + i)) ∘ Prod.fst from rfl]
  rw [← List.map_map, List.enum_map_fst]

/-- Every counter handed out from partition index `k` onwards lies at or
above partition `k`'s base. -/
lemma auxCounters_lb (startIndex cap : ℕ) :
    ∀ (parts : Dataset) (k x : ℕ), x ∈ auxCounters startIndex cap k parts →
      partitionBase startIndex cap k ≤ x := by
  intro parts
  induction parts with
  | nil =>
    intro k x hx
    simp [auxCounters] at hx
  | cons p rest ih =>
    intro k x hx
    rcases List.mem_append.mp hx with h | h
    · rcases List.mem_map.mp h with ⟨i, _, rfl⟩
      exact Nat.le_add_right _ _
    · refine le_trans ?_ (ih (k + 1) x h)
      unfold partitionBase
      have hm : k * cap ≤ (k + 1) * cap := Nat.mul_le_mul_right cap (Nat.le_succ k)
      omega

/-- If no partition exceeds the capacity, the counters handed out are
pairwise distinct: each partition stays inside its own disjoint range. -/
lemma auxCounters_nodup (startIndex cap : ℕ) :
    ∀ (parts : Dataset) (k : ℕ), (∀ p ∈ parts, p.length ≤ cap) →
      (auxCounters startIndex cap k parts).Nodup := by
  intro parts
  induction parts with
  | nil =>
    intro k _
    simp [auxCounters]
  | cons p rest ih =>
    intro k hb
    refine List.Nodup.append ?_ (ih (k + 1) (fun q hq => hb q (List.mem_cons_of_mem p hq))) ?_
    · exact (List.nodup_range p.length).map (fun i j hij => by omega)
    · intro x hx hx'
      rcases List.mem_map.mp hx with ⟨i, hi, rfl⟩
      have hlb := auxCounters_lb startIndex cap rest (k + 1) _ hx'
      have hi' : i < p.length := List.mem_range.mp hi
      have hcap : p.length ≤ cap := hb p (List.mem_cons_self p rest)
      unfold partitionBase at hlb
      rw [Nat.succ_mul] at hlb
      omega

/-- A successful `assignIds` means every partition fits its capacity, and
the output is the per-partition assignment over the enumerated input. -/
lemma assignIds_ok (pre : String) (startIndex cap : ℕ) (parts out : Dataset)
    (h : assignIds pre startIndex cap parts = .ok out) :
    (∀ p ∈ parts, p.length ≤ cap)
    ∧ out = parts.enum.map
        (fun q => assignPartition pre (partitionBase startIndex cap q.1) q.2) := by
  unfold assignIds at h
  split at h
  · exact absurd h (by simp)
  · next hc =>
    injection h with h'
    refine ⟨?_, h'.symm⟩
    simp only [List.any_eq_true, decide_eq_true_iff] at hc
    push_neg at hc
    exact hc

/-- The flattened ids of the assignment over an enumeration starting at
partition index `k` are exactly the rendered `auxCounters`. -/
lemma assignIds_flat_ids (pre : String) (startIndex cap : ℕ) :
    ∀ (parts : Dataset) (k : ℕ),
      (((parts.enumFrom k).map
          (fun q => assignPartition pre (partitionBase startIndex cap q.1) q.2)).flatten).filterMap
          Doc.id
        = (auxCounters startIndex cap k parts).map (mkId pre) := by
  intro parts
  induction parts with
  | nil => intro k; rfl
  | cons p rest ih =>
    intro k
    rw [show (p :: rest).enumFrom k = (k, p) :: rest.enumFrom (k + 1) from rfl,
      List.map_cons, List.flatten_cons, List.filterMap_append, ih (k + 1), assignPartition_ids,
      show auxCounters startIndex cap k (p :: rest)
        = (List.range p.length).map (fun i => partitionBase startIndex cap k + i)
            ++ auxCounters startIndex cap (k + 1) rest from rfl,
      List.map_append, List.map_map]
    rfl

/-- C5: for every input dataset (and any number of partitions), ids
assigned by a successful run of the Identifier Assigner are pairwise
distinct: each partition receives a disjoint counter range and assigns ids
sequentially inside it, and a fixed prefix renders distinct counters as
distinct id strings. -/
theorem assign_ids_no_collision (pre : String) (startIndex cap : ℕ) (parts out : Dataset)
    (h : assignIds pre startIndex cap parts = .ok out) :
    ((out.flatten).filterMap Doc.id).Nodup := by
  obtain ⟨hb, rfl⟩ := assignIds_ok pre startIndex cap parts out h
  rw [show parts.enum = parts.enumFrom 0 from rfl, assignIds_flat_ids]
  exact List.Nodup.map (mkId_inj pre) (auxCounters_nodup startIndex cap parts 0 hb)

/-- C5 witness: a successful concrete run with two partitions has no
duplicate ids. -/
theorem assign_ids_no_collision_witness :
    ∃ out, assignIds "VI_" 0 1000 partsC4 = .ok out
      ∧ ((out.flatten).filterMap Doc.id).Nodup :=
  ⟨_, rfl, assign_ids_no_collision "VI_" 0 1000 partsC4 _ rfl⟩

/-- C6: a partition whose document count exceeds the capacity allotted to
its id range makes the Identifier Assigner fail with
`CapacityExceededError` instead of assigning ids. -/
theorem assign_ids_capacity_error (pre : String) (startIndex cap : ℕ) (parts : Dataset)
    (h : ∃ p ∈ parts, cap < p.length) :
    ∃ e : CapacityExceededError, assignIds pre startIndex cap parts = .error e := by
  refine ⟨⟨parts.findIdx (fun p => cap < p.length)⟩, ?_⟩
  unfold assignIds
  rw [if_pos]
  simp only [List.any_eq_true, decide_eq_true_iff]
  exact h

/-- C6 witness: a two-document partition with capacity 1 errors out. -/
theorem assign_ids_capacity_error_witness :
    ∃ e : CapacityExceededError, assignIds "VI_" 0 1 bigParts = .error e :=
  assign_ids_capacity_error "VI_" 0 1 bigParts (by decide)

/-- Under any worker schedule, the result recorded for partition `k` is
determined by `k`, the input, the prefix and the start index alone. -/
lemma lookup_assignSchedule (pre : String) (startIndex cap : ℕ) (parts : Dataset) :
    ∀ (sched : List ℕ) (k : ℕ), k ∈ sched →
      (assignSchedule pre startIndex cap parts sched).lookup k
        = some (assignPartition pre (partitionBase startIndex cap k) (parts.getD k [])) := by
  intro sched
  induction sched with
  | nil =>
    intro k hk
    simp at hk
  | cons a t ih =>
    intro k hk
    rw [show assignSchedule pre startIndex cap parts (a :: t)
      = runOne pre startIndex cap parts a :: assignSchedule pre startIndex cap parts t from rfl]
    by_cases hak : k = a
    · subst hak
      simp [runOne, List.lookup]
    · have hb : (k == a) = false := beq_eq_false_iff_ne.mpr hak
      rw [show runOne pre startIndex cap parts a
        = (a, assignPartition pre (partitionBase startIndex cap a) (parts.getD a [])) from rfl]
      rw [show List.lookup k ((a, assignPartition pre (partitionBase startIndex cap a)
          (parts.getD a [])) :: assignSchedule pre startIndex cap parts t)
        = List.lookup k (assignSchedule pre startIndex cap parts t) by simp [List.lookup, hb]]
      rcases List.mem_cons.mp hk with h | h
      · exact absurd h hak
      · exact ih k h

/-- C4: the Identifier Assigner is deterministic — two runs on the same
input with the same prefix and start index assign the identical ids to
every partition's documents, whatever order the parallel workers complete
in, and the result is the pre-planned per-partition assignment. -/
theorem assign_schedule_deterministic (pre : String) (startIndex cap : ℕ) (parts : Dataset)
    (schedOne schedTwo : List ℕ) (k : ℕ) (hOne : k ∈ schedOne) (hTwo : k ∈ schedTwo) :
    (assignSchedule pre startIndex cap parts schedOne).lookup k
      = (assignSchedule pre startIndex cap parts schedTwo).lookup k
    ∧ (assignSchedule pre startIndex cap parts schedOne).lookup k
      = some (assignPartition pre (partitionBase startIndex cap k) (parts.getD k [])) := by
  rw [lookup_assignSchedule pre startIndex cap parts schedOne k hOne,
    lookup_assignSchedule pre startIndex cap parts schedTwo k hTwo]
  exact ⟨rfl, rfl⟩

/-- C4 witness: two concrete runs with opposite worker orders agree on
partition 0. -/
theorem assign_schedule_deterministic_witness :
    (assignSchedule "VI_" 0 1000 partsC4 [0, 1]).lookup 0
      = (assignSchedule "VI_" 0 1000 partsC4 [1, 0]).lookup 0
    ∧ (assignSchedule "VI_" 0 1000 partsC4 [0, 1]).lookup 0
      = some (assignPartition "VI_" (partitionBase 0 1000 0) (partsC4.getD 0 [])) :=
  assign_schedule_deterministic "VI_" 0 1000 partsC4 [0, 1] [1, 0] 0 (by decide) (by decide)

/-- C1: evaluated at a dataset with two byte-identical documents (one
distinct fingerprint), the notebook's section labelled "Exact
deduplication" — which as written just repeats the Identifier Assigner —
returns two records sharing that single fingerprint, instead of the one
record per distinct fingerprint the dedup stage is specified to keep. -/
theorem dedup_section_keeps_duplicates :
    (exactDedupSection "VI_" 0 1000 dupInput).map
        (fun out => ((out.flatten).length,
          ((out.flatten).map (fun d => fingerprint d.text)).dedup.length))
      = .ok (2, 1) := by rfl

/-! ### The heuristic filter pipeline -/

/-- Membership in a filter pipeline's output is the conjunction of all the
heuristics' pass conditions. -/
lemma mem_runFilters (hs : List Heuristic) : ∀ (ds : List Doc) (d : Doc),
    d ∈ runFilters hs ds ↔ d ∈ ds ∧ ∀ h ∈ hs, h.keep (h.score d.text) = true := by
  induction hs with
  | nil =>
    intro ds d
    simp [runFilters]
  | cons h t ih =>
    intro ds d
    rw [show runFilters (h :: t) ds
      = runFilters t (ds.filter fun x => h.keep (h.score x.text)) from rfl, ih, List.mem_filter]
    constructor
    · rintro ⟨⟨hd, hk⟩, hall⟩
      exact ⟨hd, List.forall_mem_cons.mpr ⟨hk, hall⟩⟩
    · rintro ⟨hd, hall⟩
      rcases List.forall_mem_cons.mp hall with ⟨h1, h2⟩
      exact ⟨⟨hd, h1⟩, h2⟩

/-- C7: for every pipeline built from a specification, a document appears
in the pipeline's output iff it passes every configured heuristic's
threshold individually; and since the heuristics run in the specified
order, a document rejected by the heuristic at position `i` is absent from
the working set of every later position `j`, so it is never scored there. -/
theorem filter_pipeline_and_semantics (spec : List FilterSpecEntry) (pl : List Heuristic)
    (_hb : build_filter_pipeline spec = .ok pl) (ds : List Doc) (d : Doc) :
    (d ∈ runFilters pl ds ↔ d ∈ ds ∧ ∀ h ∈ pl, h.keep (h.score d.text) = true)
    ∧ ∀ i j : ℕ, ∀ hi : i < pl.length, i < j →
        pl[i].keep (pl[i].score d.text) = false → d ∉ runFilters (pl.take j) ds := by
  refine ⟨mem_runFilters pl ds d, ?_⟩
  intro i j hi hij hkeep hmem
  have hall := ((mem_runFilters (pl.take j) ds d).mp hmem).2
  have hmem_take : pl[i] ∈ pl.take j := by
    have hlen : i < (pl.take j).length := by
      simp only [List.length_take]
      omega
    have e : (pl.take j)[i] = pl[i] := List.getElem_take ..
    rw [← e]
    exact List.getElem_mem ..
  have := hall pl[i] hmem_take
  rw [hkeep] at this
  exact Bool.false_ne_true this

/-- C7 witness: the pipeline built from `wcSpec` (word count at least 3,
then word count at least 1), run on a two-word document: the document is
rejected by the first heuristic, so it is absent from the second
heuristic's working set, and the membership characterization holds. -/
theorem filter_pipeline_and_semantics_witness :
    (d0 ∈ runFilters wcPipeline [d0]
        ↔ d0 ∈ [d0] ∧ ∀ h ∈ wcPipeline, h.keep (h.score d0.text) = true)
    ∧ d0 ∉ runFilters (wcPipeline.take 1) [d0] := by
  have h := filter_pipeline_and_semantics wcSpec wcPipeline rfl [d0] d0
  exact ⟨h.1, h.2 0 1 (by decide) (by decide) (by decide)⟩

/-! ### The classifier-based score filter -/

/-- The freshly stored quality score is the first `quality_score` entry. -/
lemma withQuality_lookup (m : FTModel) (d : Doc) :
    (withQuality m d).fields.lookup "quality_score" = some (qualityScoreOf m d.text) := by
  simp [withQuality, List.lookup]

/-- C8: the classifier score filter stores the label-conditioned
confidence into the document's `quality_score` field — every document of
its output carries that field — and its downstream filter retains exactly
the documents whose `quality_score` exceeds the configured threshold. -/
theorem quality_filter_spec (m : FTModel) (threshold : ℚ) (docs : List Doc) :
    (∀ d ∈ scoreFilterQuality m threshold docs,
        d.fields.lookup "quality_score" = some (qualityScoreOf m d.text))
    ∧ ∀ d, d ∈ scoreFilterQuality m threshold docs
        ↔ ∃ d₀ ∈ docs, d = withQuality m d₀ ∧ threshold < qualityScoreOf m d₀.text := by
  have hmem : ∀ d, d ∈ scoreFilterQuality m threshold docs
      ↔ ∃ d₀ ∈ docs, d = withQuality m d₀ ∧ threshold < qualityScoreOf m d₀.text := by
    intro d
    unfold scoreFilterQuality filterByQuality scoreStage
    rw [List.mem_filter, List.mem_map]
    constructor
    · rintro ⟨⟨d₀, hd₀, rfl⟩, hpred⟩
      refine ⟨d₀, hd₀, rfl, ?_⟩
      rw [withQuality_lookup] at hpred
      exact of_decide_eq_true hpred
    · rintro ⟨d₀, hd₀, rfl, hlt⟩
      refine ⟨⟨d₀, hd₀, rfl⟩, ?_⟩
      rw [withQuality_lookup]
      exact decide_eq_true hlt
  refine ⟨?_, hmem⟩
  intro d hd
  rcases (hmem d).mp hd with ⟨d₀, _, rfl, _⟩
  exact withQuality_lookup m d₀

/-! ### Sampling: length and membership lemmas -/

/-- Zipping equal-length constant lists. -/
lemma zip_replicate_same {α β : Type} (n : ℕ) (a : α) (b : β) :
    (List.replicate n a).zip (List.replicate n b) = List.replicate n (a, b) := by
  induction n with
  | zero => rfl
  | succ m ih => simp [List.replicate_succ, ih]

/-- Looking up every index of a row permutation hits a row. -/
lemma filterMap_get_length (p : List String) : ∀ (idxs : List ℕ),
    (∀ i ∈ idxs, i < p.length) →
    (idxs.filterMap (fun i => p.get? i)).length = idxs.length := by
  intro idxs
  induction idxs with
  | nil => intro _; rfl
  | cons a t ih =>
    intro hall
    obtain ⟨b, hb⟩ : ∃ b, p.get? a = some b := by
      cases hga : p.get? a with
      | none =>
        have := List.get?_eq_none.mp hga
        have := hall a (List.mem_cons_self a t)
        omega
      | some b => exact ⟨b, rfl⟩
    rw [List.filterMap_cons, hb]
    simp only [List.length_cons]
    rw [ih (fun i hi => hall i (List.mem_cons_of_mem a hi))]

/-- The number of rows pandas draws from one partition. -/
lemma pySamplePartition_length (num den : ℕ) (idxs : List ℕ) (p : List String)
    (h : List.Perm idxs (List.range p.length)) :
    (pySamplePartition num den idxs p).length = min (pySampleSize num den p.length) p.length := by
  have hall : ∀ i ∈ idxs, i < p.length := fun i hi => List.mem_range.mp (h.subset hi)
  show ((idxs.filterMap (fun i => p.get? i)).take (pySampleSize num den p.length)).length = _
  rw [List.length_take, filterMap_get_length p idxs hall, h.length_eq, List.length_range]

/-- The number of rows pandas draws from a partitioned dataframe: the
per-partition draws add up. -/
lemma pySampleDF_length (num den : ℕ) :
    ∀ (parts : List (List String)) (om : List (List ℕ)), parts.length = om.length →
      (∀ q ∈ parts.zip om, List.Perm q.2 (List.range q.1.length)) →
      (pySampleDF om num den parts).length
        = (parts.map (fun p => min (pySampleSize num den p.length) p.length)).sum := by
  intro parts
  induction parts with
  | nil =>
    intro om _ _
    rfl
  | cons p rest ih =>
    intro om hl hv
    cases om with
    | nil => simp at hl
    | cons o os =>
      rw [show pySampleDF (o :: os) num den (p :: rest)
        = pySamplePartition num den o p ++ pySampleDF os num den rest from by
          simp [pySampleDF]]
      rw [List.length_append, List.map_cons, List.sum_cons,
        pySamplePartition_length num den o p (hv (p, o) (List.mem_cons_self _ _)),
        ih os (Nat.succ_injective (by simpa using hl))
          (fun q hq => hv q (List.mem_cons_of_mem _ hq))]

/-- Sampling a number of rows that is exactly the partition length times
the fraction's denominator draws exactly the numerator. -/
lemma pySampleSize_exact (num den : ℕ) (hden : 0 < den) : pySampleSize num den den = num := by
  have h1 : num * den / den = num := Nat.mul_div_cancel num hden
  have h2 : num * den % den = 0 := Nat.mul_mod_left num den
  unfold pySampleSize
  simp [h1, h2, hden]

/-- In pandas' legal regime `frac ≤ 1` (`num ≤ den`) the rounded draw never
exceeds the partition length, so `pySamplePartition`'s `.take` never
truncates: the cap is inert exactly where `sample(frac, replace=False)` is
defined at all. -/
lemma pySampleSize_le (num den np : ℕ) (h : num ≤ den) : pySampleSize num den np ≤ np := by
  rcases Nat.eq_zero_or_pos den with hden | hden
  · subst hden
    have hnum : num = 0 := Nat.le_zero.mp h
    subst hnum
    unfold pySampleSize
    simp
  · have hle2 : num * np ≤ den * np := Nat.mul_le_mul_right np h
    have hqle : num * np / den ≤ np := by
      calc num * np / den ≤ den * np / den := Nat.div_le_div_right hle2
        _ = np := Nat.mul_div_cancel_left np hden
    have hmod := Nat.div_add_mod (num * np) den
    unfold pySampleSize
    show (if 2 * (num * np % den) < den then num * np / den
      else if den < 2 * (num * np % den) then num * np / den + 1
      else if (num * np / den) % 2 = 0 then num * np / den else num * np / den + 1) ≤ np
    split
    · exact hqle
    · split
      · next h3 =>
        have hr1 : 1 ≤ num * np % den := by omega
        have hlt : den * (num * np / den) < den * np := by omega
        have := Nat.lt_of_mul_lt_mul_left hlt
        omega
      · next h2 h3 =>
        split
        · exact hqle
        · have hr1 : 1 ≤ num * np % den := by omega
          have hlt : den * (num * np / den) < den * np := by omega
          have := Nat.lt_of_mul_lt_mul_left hlt
          omega


/-- C3 counterexample: on 150000 single-row partitions, `create_samples`
asked for 100000 documents draws `round((100000/150000) * 1) = 1` row from
every partition — 150000 documents, not the requested 100000. -/
theorem create_samples_not_exact :
    (create_samples c3Om c3Data "__label__lq" 100000).length ≠ 100000 := by
  have htotal : ((c3Data.map List.length).sum) = 150000 := by
    rw [show c3Data = List.replicate 150000 ["d"] from rfl, List.map_replicate,
      List.sum_replicate]
    norm_num
  have hlab : c3Data.map (List.map (fastTextLabel "__label__lq"))
      = List.replicate 150000 [fastTextLabel "__label__lq" "d"] := by
    rw [show c3Data = List.replicate 150000 ["d"] from rfl, List.map_replicate]
    rfl
  have hlen := pySampleDF_length 100000 ((c3Data.map List.length).sum)
    (c3Data.map (List.map (fastTextLabel "__label__lq"))) c3Om
    (by
      rw [hlab, show c3Om = List.replicate 150000 [0] from rfl, List.length_replicate,
        List.length_replicate])
    (by
      intro q hq
      rw [hlab, show c3Om = List.replicate 150000 [0] from rfl, zip_replicate_same] at hq
      rw [List.eq_of_mem_replicate hq]
      decide)
  rw [show create_samples c3Om c3Data "__label__lq" 100000
    = pySampleDF c3Om 100000 ((c3Data.map List.length).sum)
        (c3Data.map (List.map (fastTextLabel "__label__lq"))) from rfl, hlen, hlab, htotal,
    List.map_replicate]
  rw [show min (pySampleSize 100000 150000
      [fastTextLabel "__label__lq" "d"].length) [fastTextLabel "__label__lq" "d"].length
      = 1 from by decide]
  rw [List.sum_replicate, smul_eq_mul]
  norm_num

/-- C3 (amended): training-data preparation samples each partition
independently with the fraction `num_samples / total`: from a partition of
`np` rows it draws `round((num_samples / total) * np)` rows, so the
selected count is the per-partition sum — approximately, but not
necessarily exactly, `num_samples`; every emitted line is a source
document with the label attached. -/
theorem create_samples_length_spec (om : List (List ℕ)) (data : List (List String))
    (label : String) (n : ℕ) (hl : data.length = om.length)
    (hv : ∀ q ∈ data.zip om, List.Perm q.2 (List.range q.1.length)) :
    (create_samples om data label n).length
      = (data.map (fun p =>
          min (pySampleSize n ((data.map List.length).sum) p.length) p.length)).sum
    ∧ ∀ s ∈ create_samples om data label n,
        ∃ t, (∃ p ∈ data, t ∈ p) ∧ s = fastTextLabel label t := by
  constructor
  · rw [show create_samples om data label n
      = pySampleDF om n ((data.map List.length).sum)
          (data.map (List.map (fastTextLabel label))) from rfl]
    rw [pySampleDF_length n ((data.map List.length).sum)
        (data.map (List.map (fastTextLabel label))) om
        (by rw [List.length_map]; exact hl)
        (by
          intro q hq
          rw [List.zip_map_left] at hq
          rcases List.mem_map.mp hq with ⟨q0, hq0, rfl⟩
          obtain ⟨p, o⟩ := q0
          show List.Perm o (List.range (List.map (fastTextLabel label) p).length)
          rw [List.length_map]
          exact hv (p, o) hq0)]
    rw [List.map_map]
    have hmaps : List.map
        ((fun p => min (pySampleSize n ((data.map List.length).sum) p.length) p.length)
          ∘ List.map (fastTextLabel label)) data
      = List.map (fun p =>
          min (pySampleSize n ((data.map List.length).sum) p.length) p.length) data := by
      apply List.map_congr_left
      intro p _
      show min (pySampleSize n ((data.map List.length).sum)
          (List.map (fastTextLabel label) p).length) (List.map (fastTextLabel label) p).length
        = min (pySampleSize n ((data.map List.length).sum) p.length) p.length
      rw [List.length_map]
    rw [hmaps]
  · intro s hs
    rw [show create_samples om data label n
      = pySampleDF om n ((data.map List.length).sum)
          (data.map (List.map (fastTextLabel label))) from rfl] at hs
    unfold pySampleDF at hs
    rcases List.mem_flatten.mp hs with ⟨l, hl2, hsl⟩
    rcases List.mem_map.mp hl2 with ⟨q, hq, rfl⟩
    have hs' := List.take_subset _ _ hsl
    rcases List.mem_filterMap.mp hs' with ⟨i, _, hget⟩
    have hsq : s ∈ q.1 := List.get?_mem hget
    have hq1 : q.1 ∈ data.map (List.map (fastTextLabel label)) := (List.of_mem_zip hq).1
    rcases List.mem_map.mp hq1 with ⟨p, hp, hq1eq⟩
    rw [← hq1eq] at hsq
    rcases List.mem_map.mp hsq with ⟨t, ht, hts⟩
    exact ⟨t, ⟨p, hp, ht⟩, hts.symm⟩

/-- C3 (amended) witness: on a one-partition one-row source asked for one
sample, the formula gives exactly one emitted line and the label property
holds. -/
theorem create_samples_length_spec_witness :
    (create_samples [[0]] [["x"]] "__label__hq" 1).length
      = ([["x"]].map (fun p =>
          min (pySampleSize 1 (([["x"]].map List.length).sum) p.length) p.length)).sum
    ∧ ∀ s ∈ create_samples [[0]] [["x"]] "__label__hq" 1,
        ∃ t, (∃ p ∈ [["x"]], t ∈ p) ∧ s = fastTextLabel "__label__hq" t :=
  create_samples_length_spec [[0]] [["x"]] "__label__hq" 1 rfl (by decide)

/-! ### Nondeterminism of training-data preparation -/

/-- Looking rows up in identity order reproduces the list. -/
lemma filterMap_get_range {α : Type} : ∀ (l : List α),
    (List.range l.length).filterMap (fun i => l.get? i) = l := by
  intro l
  induction l with
  | nil => rfl
  | cons a t ih =>
    rw [show (a :: t).length = t.length + 1 from rfl, List.range_succ_eq_map,
      List.filterMap_cons]
    show a :: ((List.range t.length).map Nat.succ).filterMap (fun i => (a :: t).get? i) = a :: t
    rw [List.filterMap_map,
      show ((fun i => (a :: t).get? i) ∘ Nat.succ) = (fun i => t.get? i) from rfl, ih]

/-- The length of the one low-quality partition. -/
lemma lqRows_length : lqRows.length = 150001 := by
  rw [show lqRows = "a" :: List.replicate 150000 "b" from rfl, List.length_cons,
    List.length_replicate]

/-- `create_samples` on a single-partition dataset, symbolically: label the
rows, visit them in the sampled order, keep the rounded count. -/
lemma create_samples_singleton (idxs : List ℕ) (p : List String) (label : String) (n : ℕ) :
    create_samples [idxs] [p] label n
      = (idxs.filterMap (fun i => (List.map (fastTextLabel label) p).get? i)).take
          (pySampleSize n p.length (List.map (fastTextLabel label) p).length) := by
  show (pySamplePartition n (([p].map List.length).sum) idxs (List.map (fastTextLabel label) p)
      ++ ([] : List String)) = _
  rw [List.append_nil]
  show ((idxs.filterMap (fun i => (List.map (fastTextLabel label) p).get? i)).take
      (pySampleSize n (([p].map List.length).sum) (List.map (fastTextLabel label) p).length)) = _
  rw [show (([p] : List (List String)).map List.length).sum = p.length + 0 from rfl,
    Nat.add_zero]

/-- The shuffle that happens to draw the identity permutation reproduces
its input. -/
lemma pyShuffle_range (l : List String) : pyShuffle (List.range l.length) l = l :=
  filterMap_get_range l

/-- The first run's draw from the low-quality source: the "a" document
followed by 99999 "b" documents. -/
lemma create_samples_lq_ident :
    create_samples omIdent lqDataC10 "__label__lq" 100000
      = fastTextLabel "__label__lq" "a"
          :: List.replicate 99999 (fastTextLabel "__label__lq" "b") := by
  have hlabel : List.map (fastTextLabel "__label__lq") lqRows
      = fastTextLabel "__label__lq" "a"
          :: List.replicate 150000 (fastTextLabel "__label__lq" "b") := by
    rw [show lqRows = "a" :: List.replicate 150000 "b" from rfl, List.map_cons,
      List.map_replicate]
  have hlp : (List.map (fastTextLabel "__label__lq") lqRows).length = 150001 := by
    rw [List.length_map, lqRows_length]
  have h0 : create_samples omIdent lqDataC10 "__label__lq" 100000
      = ((List.range 150001).filterMap
          (fun i => (List.map (fastTextLabel "__label__lq") lqRows).get? i)).take
          (pySampleSize 100000 lqRows.length
            (List.map (fastTextLabel "__label__lq") lqRows).length) :=
    create_samples_singleton (List.range 150001) lqRows "__label__lq" 100000
  rw [h0, hlp, lqRows_length, pySampleSize_exact 100000 150001 (by norm_num), ← hlp,
    filterMap_get_range, hlabel, show (100000 : ℕ) = 99999 + 1 from by norm_num,
    List.take_succ_cons, List.take_replicate, show min 99999 150000 = 99999 from by norm_num]

/-- Index lookups shifted by one skip the head. -/
lemma filterMap_get_succ_cons {α : Type} (a : α) (t : List α) :
    ((List.range t.length).map Nat.succ).filterMap (fun i => (a :: t).get? i) = t := by
  rw [List.filterMap_map,
    show ((fun i => (a :: t).get? i) ∘ Nat.succ) = (fun i => t.get? i) from rfl,
    filterMap_get_range]

/-- Visiting a nonempty list in rotated index order moves its head to the
back. -/
lemma filterMap_rot {α : Type} (a : α) (t : List α) :
    ((List.range (t.length + 1)).rotate 1).filterMap (fun i => (a :: t).get? i) = t ++ [a] := by
  rw [List.range_succ_eq_map, List.rotate_cons_succ, List.rotate_zero, List.filterMap_append,
    filterMap_get_succ_cons]
  rfl

/-- The second run's draw from the low-quality source: the rotated
permutation visits the "a" document last, so the 100000 kept rows are all
"b" documents. -/
lemma create_samples_lq_rot :
    create_samples omRot lqDataC10 "__label__lq" 100000
      = List.replicate 100000 (fastTextLabel "__label__lq" "b") := by
  have hlabel : List.map (fastTextLabel "__label__lq") lqRows
      = fastTextLabel "__label__lq" "a"
          :: List.replicate 150000 (fastTextLabel "__label__lq" "b") := by
    rw [show lqRows = "a" :: List.replicate 150000 "b" from rfl, List.map_cons,
      List.map_replicate]
  have hlp : (List.map (fastTextLabel "__label__lq") lqRows).length = 150001 := by
    rw [List.length_map, lqRows_length]
  have h0 : create_samples omRot lqDataC10 "__label__lq" 100000
      = (((List.range 150001).rotate 1).filterMap
          (fun i => (List.map (fastTextLabel "__label__lq") lqRows).get? i)).take
          (pySampleSize 100000 lqRows.length
            (List.map (fastTextLabel "__label__lq") lqRows).length) :=
    create_samples_singleton ((List.range 150001).rotate 1) lqRows "__label__lq" 100000
  rw [h0, hlp, lqRows_length, pySampleSize_exact 100000 150001 (by norm_num), hlabel,
    show List.range 150001
      = List.range ((List.replicate 150000 (fastTextLabel "__label__lq" "b")).length + 1)
      from by rw [List.length_replicate],
    filterMap_rot,
    List.take_append_of_le_length (by rw [List.length_replicate]; norm_num),
    List.take_replicate, show min 100000 150000 = 100000 from by norm_num]

/-- Both runs' draw from the high-quality source: with 100000 documents
requested from 100000 rows the fraction is exactly 1 (legal for pandas
without replacement), and the identity draw returns all rows. -/
lemma create_samples_hq :
    create_samples omHqC10 hqDataC10 "__label__hq" 100000
      = List.replicate 100000 (fastTextLabel "__label__hq" "z") := by
  have hlabel : List.map (fastTextLabel "__label__hq") (List.replicate 100000 "z")
      = List.replicate 100000 (fastTextLabel "__label__hq" "z") := by
    rw [List.map_replicate]
  have hlen : (List.map (fastTextLabel "__label__hq") (List.replicate 100000 "z")).length
      = 100000 := by
    rw [List.length_map, List.length_replicate]
  have h0 : create_samples omHqC10 hqDataC10 "__label__hq" 100000
      = ((List.range 100000).filterMap
          (fun i => (List.map (fastTextLabel "__label__hq")
            (List.replicate 100000 "z")).get? i)).take
          (pySampleSize 100000 (List.replicate 100000 ("z" : String)).length
            (List.map (fastTextLabel "__label__hq") (List.replicate 100000 "z")).length) :=
    create_samples_singleton (List.range 100000) (List.replicate 100000 "z") "__label__hq" 100000
  rw [h0, hlen,
    show (List.replicate 100000 ("z" : String)).length = 100000 from by
      rw [List.length_replicate],
    pySampleSize_exact 100000 100000 (by norm_num), hlabel,
    show List.range 100000
      = List.range ((List.replicate 100000 (fastTextLabel "__label__hq" "z")).length)
      from by rw [List.length_replicate],
    filterMap_get_range, List.take_replicate, Nat.min_self]

/-- The first run's full training corpus. -/
lemma prepare_run_ident :
    prepare_training_samples omIdent omHqC10 sigC10 lqDataC10 hqDataC10
      = (fastTextLabel "__label__lq" "a"
          :: List.replicate 99999 (fastTextLabel "__label__lq" "b"))
        ++ List.replicate 100000 (fastTextLabel "__label__hq" "z") := by
  show pyShuffle sigC10 (create_samples omIdent lqDataC10 "__label__lq" 100000
      ++ create_samples omHqC10 hqDataC10 "__label__hq" 100000) = _
  rw [create_samples_lq_ident, create_samples_hq]
  have hL : ((fastTextLabel "__label__lq" "a"
        :: List.replicate 99999 (fastTextLabel "__label__lq" "b"))
      ++ List.replicate 100000 (fastTextLabel "__label__hq" "z")).length = 200000 := by
    rw [List.length_append, List.length_cons, List.length_replicate, List.length_replicate]
  rw [show sigC10 = List.range 200000 from rfl, ← hL, pyShuffle_range]

/-- The second run's full training corpus. -/
lemma prepare_run_rot :
    prepare_training_samples omRot omHqC10 sigC10 lqDataC10 hqDataC10
      = List.replicate 100000 (fastTextLabel "__label__lq" "b")
        ++ List.replicate 100000 (fastTextLabel "__label__hq" "z") := by
  show pyShuffle sigC10 (create_samples omRot lqDataC10 "__label__lq" 100000
      ++ create_samples omHqC10 hqDataC10 "__label__hq" 100000) = _
  rw [create_samples_lq_rot, create_samples_hq]
  have hL : (List.replicate 100000 (fastTextLabel "__label__lq" "b")
      ++ List.replicate 100000 (fastTextLabel "__label__hq" "z")).length = 200000 := by
    rw [List.length_append, List.length_replicate, List.length_replicate]
  rw [show sigC10 = List.range 200000 from rfl, ← hL, pyShuffle_range]

/-- The identity draw is a permutation of the low-quality row indices. -/
lemma perm_ident_range : List.Perm (List.range 150001) (List.range lqRows.length) := by
  rw [lqRows_length]

/-- The rotated draw is a permutation of the low-quality row indices. -/
lemma perm_rot_range :
    List.Perm ((List.range 150001).rotate 1) (List.range lqRows.length) := by
  have h := List.rotate_perm (List.range 150001) 1
  nth_rewrite 2 [show List.range 150001 = List.range lqRows.length from by rw [lqRows_length]]
    at h
  exact h

/-- C10: training-data preparation is nondeterministic.  Both sources are
sampled inside pandas' legal regime (the requested 100000 is at most each
source's length, so `frac ≤ 1` and no `ValueError` path is reachable), the
two unseeded `sample` draws are legitimate permutations of the same rows,
and with the identity shuffle the two runs produce different training
corpora: the first run's corpus contains the labelled "a" document, the
second run's does not. -/
theorem training_prep_nondeterministic :
    (lqDataC10.zip omIdent = [(lqRows, List.range 150001)]
      ∧ List.Perm (List.range 150001) (List.range lqRows.length))
    ∧ (lqDataC10.zip omRot = [(lqRows, (List.range 150001).rotate 1)]
      ∧ List.Perm ((List.range 150001).rotate 1) (List.range lqRows.length))
    ∧ (hqDataC10.zip omHqC10 = [(List.replicate 100000 "z", List.range 100000)]
      ∧ List.Perm (List.range 100000)
          (List.range (List.replicate 100000 ("z" : String)).length))
    ∧ sampleFracValid 100000 lqDataC10
    ∧ sampleFracValid 100000 hqDataC10
    ∧ prepare_training_samples omIdent omHqC10 sigC10 lqDataC10 hqDataC10
        ≠ prepare_training_samples omRot omHqC10 sigC10 lqDataC10 hqDataC10
    ∧ fastTextLabel "__label__lq" "a"
        ∈ prepare_training_samples omIdent omHqC10 sigC10 lqDataC10 hqDataC10
    ∧ fastTextLabel "__label__lq" "a"
        ∉ prepare_training_samples omRot omHqC10 sigC10 lqDataC10 hqDataC10 := by
  refine ⟨⟨rfl, perm_ident_range⟩, ⟨rfl, perm_rot_range⟩, ⟨rfl, ?_⟩, ?_, ?_, ?_, ?_, ?_⟩
  · rw [List.length_replicate]
  · show 100000 ≤ (lqDataC10.map List.length).sum
    rw [show lqDataC10.map List.length = [lqRows.length] from rfl, List.sum_cons,
      List.sum_nil, lqRows_length]
    norm_num
  · show 100000 ≤ (hqDataC10.map List.length).sum
    rw [show hqDataC10.map List.length
        = [(List.replicate 100000 ("z" : String)).length] from rfl,
      List.sum_cons, List.sum_nil, List.length_replicate]
    norm_num
  · rw [prepare_run_ident, prepare_run_rot]
    intro heq
    have hsplit : List.replicate 100000 (fastTextLabel "__label__lq" "b")
        = fastTextLabel "__label__lq" "b"
            :: List.replicate 99999 (fastTextLabel "__label__lq" "b") := by
      rw [show (100000 : ℕ) = 99999 + 1 from by norm_num, List.replicate_succ]
    rw [List.cons_append, hsplit, List.cons_append] at heq
    injection heq with h1 _
    exact absurd h1 (by decide)
  · rw [prepare_run_ident, List.cons_append]
    exact List.mem_cons_self _ _
  · rw [prepare_run_rot]
    intro hmem
    rcases List.mem_append.mp hmem with h | h
    · exact absurd (List.eq_of_mem_replicate h) (by decide)
    · exact absurd (List.eq_of_mem_replicate h) (by decide)

/-! ### Instantiated witnesses for the universally quantified theorems -/

/-- C9 witness: the name error occurs on a concrete (empty) raw dataset
with identity stage semantics. -/
theorem heuristic_stage_name_error_witness :
    (runNotebook (fun _ ds => ds) []).nameError = some DirName.dedupedOutputDir
    ∧ StageKind.heuristicFilterStage ∉ (runNotebook (fun _ ds => ds) []).executed
    ∧ lookupEnv (runNotebook (fun _ ds => ds) []).env DirName.dedupedOutputDir = none
    ∧ lookupEnv (runNotebook (fun _ ds => ds) []).env DirName.heuristicDir = none :=
  heuristic_stage_name_error (fun _ ds => ds) []

/-- C2 (amended) witness: the stage order, evaluated on a concrete run. -/
theorem notebook_stage_order_witness :
    notebookCells.map CellApp.stage
      = [.unicodeReformat, .addIdStage, .addIdStage, .heuristicFilterStage,
         .heuristicFilterStage, .trainClassifierStage, .classifierFilterStage]
    ∧ notebookCells.get? 0 = some ⟨.unicodeReformat, [.rawDir], .formattedDir⟩
    ∧ notebookCells.get? 1 = some ⟨.addIdStage, [.formattedDir], .addIdDir⟩
    ∧ notebookCells.get? 2 = some ⟨.addIdStage, [.formattedDir], .addIdDir⟩
    ∧ (runNotebook (fun _ ds => ds) []).executed
        = [.unicodeReformat, .addIdStage, .addIdStage] :=
  notebook_stage_order (fun _ ds => ds) []

/-- C8 witness: the toy classifier keeps exactly the "good" document, and
every kept document carries its quality score. -/
theorem quality_filter_spec_witness :
    (∀ d ∈ scoreFilterQuality m0 (1 / 2 : ℚ) docsC8,
        d.fields.lookup "quality_score" = some (qualityScoreOf m0 d.text))
    ∧ ∀ d, d ∈ scoreFilterQuality m0 (1 / 2 : ℚ) docsC8
        ↔ ∃ d₀ ∈ docsC8, d = withQuality m0 d₀
            ∧ (1 / 2 : ℚ) < qualityScoreOf m0 d₀.text :=
  quality_filter_spec m0 (1 / 2) docsC8
